import Mathlib

/-!
Shallow embedding of the tender repository's document-ingestion pipeline
(`modules/manual_tender_entry.py`) and matching engine
(`modules/tender_monitor.py`), with theorems settling the frozen claims.

Strings are processed as `List Char`.  Python `str.lower` and
`re.IGNORECASE` are modelled for ASCII plus the Cyrillic block actually
used by the code's literals; Python `datetime` values are modelled down to
seconds (the sub-second field never influences any modelled computation
except through the `≤` comparison, where dropping it only makes the
modelled "now" earlier).
-/

namespace Tender

/-- Models Python `str.lower` per character: ASCII `A`-`Z`, Cyrillic
`А`-`Я` (U+0410..U+042F) and `Ё` map to their lowercase forms; everything
else is unchanged. -/
def lowerChar (c : Char) : Char :=
  if 65 ≤ c.toNat ∧ c.toNat ≤ 90 then Char.ofNat (c.toNat + 32)
  else if 0x410 ≤ c.toNat ∧ c.toNat ≤ 0x42F then Char.ofNat (c.toNat + 32)
  else if c.toNat = 0x401 then Char.ofNat 0x451
  else c

/-- Models Python `str.lower` on a whole string. -/
def strLower (s : String) : String :=
  ⟨s.data.map lowerChar⟩

/-- Models the Python substring test `needle in hay` on character lists. -/
def listContains (hay needle : List Char) : Bool :=
  match hay with
  | [] => needle.isEmpty
  | _ :: tl => needle.isPrefixOf hay || listContains tl needle

/-- Models the Python substring test `needle in hay` on strings. -/
def strContains (hay needle : String) : Bool :=
  listContains hay.data needle.data

/-- A word character for the purposes of the `\w+` pattern used by
`TenderMonitor._nearby_words`: ASCII alphanumerics, underscore, and the
Cyrillic letters the repository's data uses. -/
def isWordChar (c : Char) : Bool :=
  c.isAlphanum || c == '_' ||
    (0x410 ≤ c.toNat && c.toNat ≤ 0x44F) || c.toNat == 0x401 || c.toNat == 0x451

/-- Python `\s` whitespace characters. -/
def isSpaceChar (c : Char) : Bool :=
  c == ' ' || c == '\t' || c == '\n' || c == '\r' || c.toNat == 11 || c.toNat == 12

/-- Maximal runs of characters satisfying `p` (accumulator holds the
current run, reversed). -/
def runsBy (p : Char → Bool) : List Char → List Char → List (List Char)
  | [], acc => if acc.isEmpty then [] else [acc.reverse]
  | c :: tl, acc =>
    if p c then runsBy p tl (c :: acc)
    else if acc.isEmpty then runsBy p tl [] else acc.reverse :: runsBy p tl []

/-- Models `re.findall(r"\w+", s)`: the maximal runs of word characters. -/
def findWords (s : String) : List String :=
  (runsBy isWordChar s.data []).map fun l => ⟨l⟩

/-- Models Python `str.split()` with no argument: maximal runs of
non-whitespace characters. -/
def pySplit (s : String) : List String :=
  (runsBy (fun c => !isSpaceChar c) s.data []).map fun l => ⟨l⟩

/-- A Python `datetime` value, to second precision. -/
structure PyDateTime where
  year : Nat
  month : Nat
  day : Nat
  hour : Nat
  minute : Nat
  second : Nat
  deriving Repr, DecidableEq

/-- Python `datetime` comparison `a <= b` (lexicographic on the fields). -/
def dtLe (a b : PyDateTime) : Bool :=
  if a.year ≠ b.year then Nat.blt a.year b.year
  else if a.month ≠ b.month then Nat.blt a.month b.month
  else if a.day ≠ b.day then Nat.blt a.day b.day
  else if a.hour ≠ b.hour then Nat.blt a.hour b.hour
  else if a.minute ≠ b.minute then Nat.blt a.minute b.minute
  else Nat.ble a.second b.second

/-- Gregorian leap-year rule, as used by Python's `datetime`. -/
def isLeapYear (y : Nat) : Bool :=
  (y % 4 == 0 && y % 100 != 0) || y % 400 == 0

/-- Number of days in a month, as enforced by the `datetime` constructor. -/
def daysInMonth (y m : Nat) : Nat :=
  if m == 2 then (if isLeapYear y then 29 else 28)
  else if m == 4 || m == 6 || m == 9 || m == 11 then 30
  else 31

/-- Numeric value of an ASCII digit character. -/
def digitVal (c : Char) : Nat := c.toNat - 48

/-- Reads a numeric `strptime` directive that CPython compiles to a
two-digit-first alternation (`%d`, `%m`, `%H`, `%M`): two digits are
consumed when available and must satisfy `ok2`; otherwise a single digit
satisfying `ok1` is consumed.  In both modelled formats every such field
is followed by a non-digit literal, a whitespace run, or the end of the
input, so the regex backtracking from the two-digit branch to the
one-digit branch can never change the overall outcome and is elided. -/
def readNum (ok2 ok1 : Nat → Bool) : List Char → Option (Nat × List Char)
  | c1 :: c2 :: rest =>
    if c1.isDigit then
      if c2.isDigit then
        let v := digitVal c1 * 10 + digitVal c2
        if ok2 v then some (v, rest) else none
      else if ok1 (digitVal c1) then some (digitVal c1, c2 :: rest) else none
    else none
  | [c1] => if c1.isDigit && ok1 (digitVal c1) then some (digitVal c1, []) else none
  | [] => none

/-- Reads the `%Y` directive: exactly four ASCII digits. -/
def readYear4 : List Char → Option (Nat × List Char)
  | c1 :: c2 :: c3 :: c4 :: rest =>
    if c1.isDigit && c2.isDigit && c3.isDigit && c4.isDigit then
      some (digitVal c1 * 1000 + digitVal c2 * 100 + digitVal c3 * 10 + digitVal c4, rest)
    else none
  | _ => none

/-- Reads one literal character of the format string. -/
def readLit (c : Char) : List Char → Option (List Char)
  | d :: rest => if d == c then some rest else none
  | [] => none

/-- Consumes any further whitespace after at least one was read. -/
def readWsMore : List Char → List Char
  | c :: rest => if isSpaceChar c then readWsMore rest else c :: rest
  | [] => []

/-- Reads the `\s+` that CPython substitutes for a whitespace character in
a `strptime` format string: one or more whitespace characters (greedy; the
next directive starts with a digit, so greediness is harmless). -/
def readWs1 : List Char → Option (List Char)
  | c :: rest => if isSpaceChar c then some (readWsMore rest) else none
  | [] => none

/-- Value constraints of the `%d` directive, two-digit branch
(`3[01]|[12]\d|0[1-9]`). -/
def okDay2 (v : Nat) : Bool := 1 ≤ v && v ≤ 31

/-- Value constraints of the `%d` directive, one-digit branch (`[1-9]`). -/
def okDay1 (v : Nat) : Bool := 1 ≤ v

/-- Value constraints of the `%m` directive, two-digit branch
(`1[0-2]|0[1-9]`). -/
def okMonth2 (v : Nat) : Bool := 1 ≤ v && v ≤ 12

/-- Value constraints of the `%m` directive, one-digit branch (`[1-9]`). -/
def okMonth1 (v : Nat) : Bool := 1 ≤ v

/-- Value constraints of the `%H` directive, two-digit branch
(`2[0-3]|[0-1]\d`). -/
def okHour2 (v : Nat) : Bool := v ≤ 23

/-- Value constraints of the `%H` directive, one-digit branch (`\d`). -/
def okHour1 (_ : Nat) : Bool := true

/-- Value constraints of the `%M` directive, two-digit branch (`[0-5]\d`). -/
def okMin2 (v : Nat) : Bool := v ≤ 59

/-- Value constraints of the `%M` directive, one-digit branch (`\d`). -/
def okMin1 (_ : Nat) : Bool := true

/-- Models `datetime.strptime(s, "%d.%m.%Y %H:%M")`: full-string match of
the compiled pattern followed by the `datetime` constructor's range
checks (`ValueError` on failure, modelled as `none`). -/
def parseDMYHM (s : String) : Option PyDateTime :=
  match readNum okDay2 okDay1 s.data with
  | none => none
  | some (d, r1) =>
    match readLit '.' r1 with
    | none => none
    | some r2 =>
      match readNum okMonth2 okMonth1 r2 with
      | none => none
      | some (m, r3) =>
        match readLit '.' r3 with
        | none => none
        | some r4 =>
          match readYear4 r4 with
          | none => none
          | some (y, r5) =>
            match readWs1 r5 with
            | none => none
            | some r6 =>
              match readNum okHour2 okHour1 r6 with
              | none => none
              | some (h, r7) =>
                match readLit ':' r7 with
                | none => none
                | some r8 =>
                  match readNum okMin2 okMin1 r8 with
                  | none => none
                  | some (mi, r9) =>
                    if r9.isEmpty && 1 ≤ y && d ≤ daysInMonth y m then
                      some ⟨y, m, d, h, mi, 0⟩
                    else none

/-- Models `datetime.strptime(s, "%Y-%m-%d")`, as used by
`TenderMonitor._is_expired`. -/
def parseYMD (s : String) : Option PyDateTime :=
  match readYear4 s.data with
  | none => none
  | some (y, r1) =>
    match readLit '-' r1 with
    | none => none
    | some r2 =>
      match readNum okMonth2 okMonth1 r2 with
      | none => none
      | some (m, r3) =>
        match readLit '-' r3 with
        | none => none
        | some r4 =>
          match readNum okDay2 okDay1 r4 with
          | none => none
          | some (d, r5) =>
            if r5.isEmpty && 1 ≤ y && d ≤ daysInMonth y m then
              some ⟨y, m, d, 0, 0, 0⟩
            else none

/-- ASCII digit character for `n < 10`. -/
def digitChar (n : Nat) : Char := Char.ofNat (48 + n)

/-- Two-digit zero-padded decimal rendering (values below 100). -/
def pad2 (n : Nat) : List Char := [digitChar (n / 10 % 10), digitChar (n % 10)]

/-- Four-digit zero-padded decimal rendering (values below 10000). -/
def pad4 (n : Nat) : List Char :=
  [digitChar (n / 1000 % 10), digitChar (n / 100 % 10),
   digitChar (n / 10 % 10), digitChar (n % 10)]

/-- Models `dt.strftime("%d.%m.%Y %H:%M")` for in-range dates. -/
def fmtDMYHM (t : PyDateTime) : String :=
  ⟨pad2 t.day ++ '.' :: pad2 t.month ++ '.' :: pad4 t.year ++
    ' ' :: pad2 t.hour ++ ':' :: pad2 t.minute⟩

/-!
Models of the regular expressions in `ManualTenderEntry`.  The source
writes them as RAW strings containing doubled backslashes, e.g.
`r"ИНН заказчика[:\\s]+(\\d{10,12})"`, so the compiled patterns contain
`\\` (an escaped literal backslash) followed by the plain letters `d`,
`s`, `w`: the character class is `{':', '\', 's'}` and the "digit"
positions require a literal backslash followed by the letter `d`.
All matching below is case-insensitive via `lowerChar`, mirroring
`re.IGNORECASE`.
-/

/-- The backslash character. -/
def bsl : Char := '\\'

/-- Case-insensitive membership of `c` in the character class `cls`. -/
def inCls (cls : List Char) (c : Char) : Bool :=
  cls.any fun k => lowerChar k == lowerChar c

/-- Matches the literal pattern `p` case-insensitively at the head of
`s`, returning the rest. -/
def matchLits : List Char → List Char → Option (List Char)
  | [], s => some s
  | _ :: _, [] => none
  | p :: ps, c :: cs => if lowerChar p == lowerChar c then matchLits ps cs else none

/-- Greedy `[cls]*` followed by the continuation `k`, with the regex
engine's backtracking: longest consumed run is tried first. -/
def clsStarThen {α : Type} (cls : List Char) (k : List Char → Option α) :
    List Char → Option α
  | [] => k []
  | c :: rest =>
    if inCls cls c then
      match clsStarThen cls k rest with
      | some r => some r
      | none => k (c :: rest)
    else k (c :: rest)

/-- Greedy `[cls]+` followed by the continuation `k`, with backtracking. -/
def clsPlusThen {α : Type} (cls : List Char) (k : List Char → Option α) :
    List Char → Option α
  | [] => none
  | c :: rest => if inCls cls c then clsStarThen cls k rest else none

/-- Greedy `c{lo,hi}` (a repeated case-insensitive literal) followed by
`k`, with backtracking from the longest repetition down to `lo`. -/
def litRepThen {α : Type} (c : Char) (k : List Char → Option α) :
    Nat → Nat → List Char → Option α
  | lo, 0, s => if lo == 0 then k s else none
  | lo, _ + 1, [] => if lo == 0 then k [] else none
  | lo, h + 1, d :: rest =>
    if lowerChar d == lowerChar c then
      match litRepThen c k (lo - 1) h rest with
      | some r => some r
      | none => if lo == 0 then k (d :: rest) else none
    else if lo == 0 then k (d :: rest) else none

/-- One-character regex tokens of the compiled (buggy) deadline group. -/
inductive RTok where
  | lit (c : Char)
  | anyNN
  deriving Repr, DecidableEq

/-- Matches a fixed token sequence (each token consumes one character). -/
def matchToks : List RTok → List Char → Option (List Char)
  | [], s => some s
  | _ :: _, [] => none
  | RTok.lit c :: ts, d :: rest =>
    if lowerChar d == lowerChar c then matchToks ts rest else none
  | RTok.anyNN :: ts, d :: rest =>
    if d == '\n' then none else matchToks ts rest

/-- The compiled form of the group in
`r"Срок исполнения[:\\s]+(\\d{2}\\.\\d{2}\\.\\d{4}\\s\\d{2}:\\d{2})"`:
`\\d{2}` is a literal backslash and two letters `d`, `\\.` is a literal
backslash and the any-character metachar, `\\s` a literal backslash and
the letter `s`. -/
def deadlineToks : List RTok :=
  [RTok.lit bsl, RTok.lit 'd', RTok.lit 'd',
   RTok.lit bsl, RTok.anyNN,
   RTok.lit bsl, RTok.lit 'd', RTok.lit 'd',
   RTok.lit bsl, RTok.anyNN,
   RTok.lit bsl, RTok.lit 'd', RTok.lit 'd', RTok.lit 'd', RTok.lit 'd',
   RTok.lit bsl, RTok.lit 's',
   RTok.lit bsl, RTok.lit 'd', RTok.lit 'd',
   RTok.lit ':',
   RTok.lit bsl, RTok.lit 'd', RTok.lit 'd']

/-- Attempts the deadline pattern at the start of `s`, returning the
captured group. -/
def matchDeadlineAt (s : List Char) : Option String :=
  match matchLits "Срок исполнения".data s with
  | none => none
  | some r =>
    clsPlusThen [':', bsl, 's']
      (fun t =>
        match matchToks deadlineToks t with
        | some _ => some ⟨t.take deadlineToks.length⟩
        | none => none) r

/-- Attempts the customer-INN pattern
`r"ИНН заказчика[:\\s]+(\\d{10,12})"` at the start of `s`: the group is a
literal backslash followed by 10 to 12 letters `d`. -/
def matchInnAt (s : List Char) : Option String :=
  match matchLits "ИНН заказчика".data s with
  | none => none
  | some r =>
    clsPlusThen [':', bsl, 's']
      (fun t =>
        match t with
        | c :: rest =>
          if c == bsl then
            litRepThen 'd'
              (fun u => some ⟨c :: rest.take (rest.length - u.length)⟩)
              10 12 rest
          else none
        | [] => none) r

/-- Models `re.search`: the match attempt is made at every position, left
to right, including the end of the string. -/
def searchAux {α : Type} (m : List Char → Option α) : List Char → Option α
  | [] => m []
  | c :: rest =>
    match m (c :: rest) with
    | some r => some r
    | none => searchAux m rest

/-- The fields `ManualTenderEntry._extract_fields_from_text` can set. -/
structure AutoFields where
  customer_inn : Option String
  submission_deadline : Option String
  deriving Repr, DecidableEq

/-- Models `ManualTenderEntry._extract_fields_from_text`. -/
def extract_fields_from_text (text : String) : AutoFields :=
  { customer_inn := searchAux matchInnAt text.data
    submission_deadline := searchAux matchDeadlineAt text.data }

/-- One `(code, price)` product mention, as extracted by
`ManualTenderEntry._extract_product_candidates`. -/
structure ProductCandidate where
  code : String
  price : String
  deriving Repr, DecidableEq

/-- The character class of the compiled `[\\s\\d.,]` : literal backslash,
letters `s` and `d`, dot and comma. -/
def priceClsChars : List Char := [bsl, 's', 'd', '.', ',']

/-- The price group of the compiled product pattern: `\\d+[\\s\\d.,]*`,
i.e. a literal backslash, one or more letters `d`, then the class run.
It is the final group, so greedy maximal runs need no backtracking. -/
def matchPriceAt : List Char → Option (String × List Char)
  | c :: rest =>
    if c == bsl then
      match rest with
      | d :: rest2 =>
        if lowerChar d == 'd' then
          let p1 := rest2.span fun x => lowerChar x == 'd'
          let p2 := p1.2.span fun x => inCls priceClsChars x
          some (⟨c :: d :: (p1.1 ++ p2.1)⟩, p2.2)
        else none
      | [] => none
    else none
  | [] => none

/-- The lazy `.*?` preceding the price group: the price match is tried at
the current position first, then one non-newline character is skipped. -/
def lazyThenPrice : List Char → Option (String × List Char)
  | [] => none
  | c :: rest =>
    match matchPriceAt (c :: rest) with
    | some r => some r
    | none => if c == '\n' then none else lazyThenPrice rest

/-- The code group of the compiled product pattern: `\\w+` is a literal
backslash then one or more letters `w` (greedy; the following `.*?`
also matches the letter `w`, so giving characters back can never turn a
failure into a success and the maximal run is the regex's choice). -/
def matchCodeAt : List Char → Option (String × String × List Char)
  | c :: rest =>
    if c == bsl then
      match rest with
      | w1 :: rest2 =>
        if lowerChar w1 == 'w' then
          let p1 := rest2.span fun x => lowerChar x == 'w'
          match lazyThenPrice p1.2 with
          | some pr => some (⟨c :: w1 :: p1.1⟩, pr.1, pr.2)
          | none => none
        else none
      | [] => none
    else none
  | [] => none

/-- The second alternative of the leading group, compiled from
`арт\\.?`: the literal `арт`, a literal backslash, then an optional
any-character (greedy). -/
def matchProductAlt2 (s : List Char) : Option (String × String × List Char) :=
  match matchLits "арт".data s with
  | none => none
  | some r =>
    match r with
    | c :: rest =>
      if c == bsl then
        match rest with
        | d :: rest2 =>
          if d ≠ '\n' then
            match clsPlusThen [bsl, 's', ':'] matchCodeAt rest2 with
            | some out => some out
            | none => clsPlusThen [bsl, 's', ':'] matchCodeAt rest
          else clsPlusThen [bsl, 's', ':'] matchCodeAt rest
        | [] => clsPlusThen [bsl, 's', ':'] matchCodeAt rest
      else none
    | [] => none

/-- Attempts the whole compiled product pattern
`(артикул|арт\\.?)[\\s:]+(?P<code>\\w+).*?(?P<price>\\d+[\\s\\d.,]*)`
at the start of `s`, alternatives in source order. -/
def matchProductAt (s : List Char) : Option (String × String × List Char) :=
  match matchLits "артикул".data s with
  | some r =>
    match clsPlusThen [bsl, 's', ':'] matchCodeAt r with
    | some out => some out
    | none => matchProductAlt2 s
  | none => matchProductAlt2 s

/-- Models `re.finditer` over the product pattern: scan left to right,
emit each non-overlapping match, resume after its end.  The fuel is the
remaining scan length plus one; every step consumes at least one
character of it. -/
def finditerProducts : Nat → List Char → List (String × String)
  | 0, _ => []
  | _ + 1, [] =>
    []
  | f + 1, c :: tl =>
    match matchProductAt (c :: tl) with
    | some (code, price, rest) => (code, price) :: finditerProducts f rest
    | none => finditerProducts f tl

/-- Models `ManualTenderEntry._extract_product_candidates` (the
`.replace(" ", "")` on the price is the final `filter`). -/
def extract_product_candidates (text : String) : List ProductCandidate :=
  (finditerProducts (text.data.length + 1) text.data).map
    fun cp => ⟨cp.1, ⟨cp.2.data.filter fun c => c != ' '⟩⟩

/-!
XML and zip-container model.  A parsed XML element carries what
`xml.etree.ElementTree` exposes: the tag (with its `{namespace}` prefix
inside the string), the `.text` attribute, and the child elements.
-/

/-- A parsed XML element. -/
inductive Xml where
  | elem (tag : String) (textAttr : Option String) (children : List Xml)

mutual

/-- Models `Element.iter()`: the element itself, then every descendant in
document (pre-) order. -/
def Xml.iterNodes : Xml → List Xml
  | Xml.elem t tx ch => Xml.elem t tx ch :: iterNodesList ch

/-- `iter()` concatenated over a list of sibling elements. -/
def iterNodesList : List Xml → List Xml
  | [] => []
  | x :: xs => x.iterNodes ++ iterNodesList xs

end

/-- Tag of an element. -/
def Xml.tag : Xml → String
  | Xml.elem t _ _ => t

/-- The `.text` attribute of an element. -/
def Xml.textOf : Xml → Option String
  | Xml.elem _ tx _ => tx

/-- Suffix test on strings via their character lists (kernel-reducible
version of `str.endswith`). -/
def strEndsWith (s suf : String) : Bool := suf.data.isSuffixOf s.data

/-- Prefix test on strings via their character lists (kernel-reducible
version of `str.startswith`). -/
def strStartsWith (s pre : String) : Bool := pre.data.isPrefixOf s.data

/-- Python `s[:-1]`: drop the last character. -/
def pyDropLast (s : String) : String := ⟨s.data.dropLast⟩

/-- The text runs collected by `_extract_text_from_docx` from a parsed
`word/document.xml`: for every iterated node whose text is truthy and
whose tag ends in `}t`, that text, in document order. -/
def tTexts (root : Xml) : List String :=
  root.iterNodes.filterMap fun n =>
    match n.textOf with
    | some s => if !s.isEmpty && strEndsWith n.tag "\x7dt" then some s else none
    | none => none

/-!
File model.  A file is a name plus a body; a body is either raw text
bytes or zip bytes.  Zip bytes carry a well-formedness flag (`false`
models bytes on which `zipfile.ZipFile` raises `BadZipFile`), the named
parts as the container readers see them (`none` for a part whose bytes
make `ElementTree.fromstring` raise), and the entry files an
`extractall` produces.  A real zip derives parts and entries from the
same bytes; the claims never need both views of one file at once.
-/

mutual

/-- The body of an uploaded or extracted file. -/
inductive FileBody where
  | textData (s : String)
  | zipData (ok : Bool) (parts : List (String × Option Xml)) (entries : FileList)

/-- A list of named files. -/
inductive FileList where
  | nil
  | cons (name : String) (body : FileBody) (rest : FileList)

end

/-- The exceptions the modelled pipeline can let escape.
`recursionError` stands for the uncaught `RecursionError` that CPython
raises when `_process_archive`'s walk over the shared temporary
directory re-encounters a nested archive and recurses without bound. -/
inductive PyExc where
  | valueError (msg : String)
  | badZipFile
  | xmlParseError
  | recursionError
  deriving Repr, DecidableEq

/-- First binding of a part name in a zip's part list
(models `archive.read(name)` guarded by `name in archive.namelist()`). -/
def lookupPart : List (String × Option Xml) → String → Option (Option Xml)
  | [], _ => none
  | (n, x) :: tl, key => if n == key then some x else lookupPart tl key

/-- The suffix after the last `.` of the name, if any. -/
def afterLastDot : List Char → Option (List Char) → Option (List Char)
  | [], acc => acc
  | c :: tl, acc => if c == '.' then afterLastDot tl (some tl) else afterLastDot tl acc

/-- Models `os.path.splitext(path)[1].lower()` for ordinary file names:
the lowercased suffix from the last dot, or `""` when there is none. -/
def pyExt (name : String) : String :=
  match afterLastDot name.data none with
  | none => ""
  | some suf => strLower ⟨'.' :: suf⟩

/-- `ManualTenderEntry.ALLOWED_DOCS`. -/
def ALLOWED_DOCS : List String := [".pdf", ".docx", ".txt"]

/-- `ManualTenderEntry.ALLOWED_TABLES`. -/
def ALLOWED_TABLES : List String := [".xlsx", ".xls", ".csv"]

/-- `ManualTenderEntry.ALLOWED_IMAGES`. -/
def ALLOWED_IMAGES : List String := [".jpg", ".jpeg", ".png", ".tiff", ".bmp"]

/-- `ManualTenderEntry.ALLOWED_ARCHIVES`. -/
def ALLOWED_ARCHIVES : List String := [".zip", ".rar"]

/-- `ManualTenderEntry.BLOCKED_EXTENSIONS`. -/
def BLOCKED_EXTENSIONS : List String := [".exe", ".bat", ".vbs"]

/-- Text obtained by reading a file body with `errors="ignore"`: the
contents for text bytes; for zip bytes some permissively decoded string
whose exact value never matters here, modelled as empty.  Reading never
raises. -/
def readTextBody : FileBody → String
  | FileBody.textData s => s
  | FileBody.zipData _ _ _ => ""

/-- Models `ManualTenderEntry._extract_text_from_docx`.  `BadZipFile` and
`KeyError` are caught and give the empty string; a `fromstring` parse
error is NOT in the `except` tuple and escapes. -/
def extract_text_from_docx (body : FileBody) : Except PyExc String :=
  match body with
  | FileBody.textData _ => Except.ok ""
  | FileBody.zipData false _ _ => Except.ok ""
  | FileBody.zipData true parts _ =>
    match lookupPart parts "word/document.xml" with
    | none => Except.ok ""
    | some none => Except.error PyExc.xmlParseError
    | some (some root) => Except.ok (String.intercalate "\n" (tTexts root))

/-- The shared-string table as `_extract_text_from_xlsx` builds it:
`enumerate` runs over ALL nodes yielded by `shared_root.iter()` and the
`t`-tag filter only selects which enumerated pairs are kept, so the keys
are positions in the whole-tree iteration, not entry indices. -/
def sharedTable (root : Xml) : List (Nat × String) :=
  root.iterNodes.enum.filterMap fun p =>
    if strEndsWith p.2.tag "\x7dt" then some (p.1, p.2.textOf.getD "") else none

/-- Lookup in the shared table (`int(cell.text) in shared` / `shared[...]`). -/
def tableLookup : List (Nat × String) → Nat → Option String
  | [], _ => none
  | (k, v) :: tl, key => if k == key then some v else tableLookup tl key

/-- Python `str.isdigit` restricted to ASCII digits. -/
def strIsDigit (s : String) : Bool := !s.isEmpty && s.data.all Char.isDigit

/-- `int(s)` on a string of ASCII digits. -/
def strToNatM (s : String) : Nat := s.data.foldl (fun a c => a * 10 + digitVal c) 0

/-- First part whose name starts with `xl/worksheets`, as selected by the
`next(...)` generator over `archive.namelist()`. -/
def firstWorksheet : List (String × Option Xml) → Option (Option Xml)
  | [] => none
  | (n, x) :: tl => if strStartsWith n "xl/worksheets" then some x else firstWorksheet tl

/-- The values emitted from a worksheet tree: for every iterated node
whose tag ends in `}v` and whose text is truthy, the shared string at
`int(text)` when the text is purely numeric and that key is in the
table, otherwise the literal text. -/
def cellValues (shared : List (Nat × String)) (root : Xml) : List String :=
  root.iterNodes.filterMap fun n =>
    match n.textOf with
    | none => none
    | some t =>
      if !t.isEmpty && strEndsWith n.tag "\x7dv" then
        if strIsDigit t then
          match tableLookup shared (strToNatM t) with
          | some v => some v
          | none => some t
        else some t
      else none

/-- Models `ManualTenderEntry._extract_text_from_xlsx`.  The `except`
tuple `(KeyError, zipfile.BadZipFile, StopIteration)` does not include
XML parse errors, which escape both for the shared-string part and for
the worksheet part. -/
def extract_text_from_xlsx (body : FileBody) : Except PyExc String :=
  match body with
  | FileBody.textData _ => Except.ok ""
  | FileBody.zipData false _ _ => Except.ok ""
  | FileBody.zipData true parts _ =>
    let sharedE : Except PyExc (List (Nat × String)) :=
      match lookupPart parts "xl/sharedStrings.xml" with
      | none => Except.ok []
      | some none => Except.error PyExc.xmlParseError
      | some (some root) => Except.ok (sharedTable root)
    match sharedE with
    | Except.error e => Except.error e
    | Except.ok shared =>
      match firstWorksheet parts with
      | none => Except.ok ""
      | some none => Except.error PyExc.xmlParseError
      | some (some root) => Except.ok (String.intercalate "\n" (cellValues shared root))

/-- Models `ManualTenderEntry._extract_text_from_csv`, simplified to
comma splitting without quoting rules (no claim exercises csv content);
reading never raises. -/
def extract_text_from_csv (body : FileBody) : String :=
  String.intercalate "\n"
    (((readTextBody body).splitOn "\n").map fun row =>
      String.intercalate " " (row.splitOn ","))

/-- Models `ManualTenderEntry._extract_text_from_table`. -/
def extract_text_from_table (ext : String) (body : FileBody) : Except PyExc String :=
  if ext == ".csv" then Except.ok (extract_text_from_csv body)
  else if ext == ".xlsx" then extract_text_from_xlsx body
  else Except.ok ""

/-- Models `ManualTenderEntry._extract_text_from_document` (the
`path.lower().endswith(...)` tests agree with the normalized extension
for ordinary names). -/
def extract_text_from_document (ext : String) (body : FileBody) : Except PyExc String :=
  if ext == ".txt" then Except.ok (readTextBody body)
  else if ext == ".docx" then extract_text_from_docx body
  else Except.ok ""

/-- Models `ManualTenderEntry._extract_text_from_image` in an
environment without the optional PIL dependency (`Image is None`):
empty text.  Even with PIL, `_simple_ocr_placeholder` returns `""`. -/
def extract_text_from_image (_ : FileBody) : String := ""

/-- Per-file metadata, as built by `_metadata` and `_process_archive`. -/
structure FileMeta where
  file : String
  type : String
  blocked : Bool
  error : Option String
  processed_files : Option Nat
  deriving Repr, DecidableEq

/-- One file's extraction result. -/
structure FileResult where
  text : String
  product_candidates : List ProductCandidate
  metadata : FileMeta
  deriving Repr, DecidableEq

/-- `"\n".join(filter(None, texts))`. -/
def joinNonEmpty (texts : List String) : String :=
  String.intercalate "\n" (texts.filter fun t => !t.isEmpty)

mutual

/-- Models `ManualTenderEntry._process_single_file`: dispatch on the
normalized extension.  `inTemp` records whether the path lies inside the
shared temporary workspace (true exactly for the entries reached through
`os.walk(temp_dir)`, false for the uploaded paths themselves); the
source distinguishes the two cases implicitly through the path. -/
def process_single_file (inTemp : Bool) (name : String) (body : FileBody) :
    Except PyExc FileResult :=
  let ext := pyExt name
  if BLOCKED_EXTENSIONS.contains ext then
    Except.ok ⟨"", [], ⟨name, ext, true, none, none⟩⟩
  else if ALLOWED_ARCHIVES.contains ext then
    process_archive inTemp name ext body
  else if ALLOWED_IMAGES.contains ext then
    let t := extract_text_from_image body
    Except.ok ⟨t, extract_product_candidates t, ⟨name, ext, false, none, none⟩⟩
  else if ALLOWED_TABLES.contains ext then
    match extract_text_from_table ext body with
    | Except.error e => Except.error e
    | Except.ok t =>
      Except.ok ⟨t, extract_product_candidates t, ⟨name, ext, false, none, none⟩⟩
  else if ALLOWED_DOCS.contains ext then
    match extract_text_from_document ext body with
    | Except.error e => Except.error e
    | Except.ok t =>
      Except.ok ⟨t, extract_product_candidates t, ⟨name, ext, false, none, none⟩⟩
  else
    Except.ok ⟨"", [], ⟨name, ext, false, none, none⟩⟩
termination_by (sizeOf body, 1)

/-- Models `ManualTenderEntry._process_archive`.  For a `.zip` the
source calls `zipfile.ZipFile` with no `try` around it, so malformed zip
bytes raise `BadZipFile` to the caller; for `.rar` without the optional
`rarfile` module the error is recorded in metadata and the result is
empty.  A well-formed `.zip` is unpacked and `os.walk(temp_dir)`
re-dispatches every file of the workspace.  For an archive that is
ITSELF inside the workspace (`inTemp = true`) that walk re-encounters
the archive file and recurses without bound; CPython surfaces this as an
uncaught `RecursionError`, which the model returns at the point the
unbounded recursion begins.  The walk also re-encounters files left by
earlier archives of the same batch; re-processing those repeats
extractions that already succeeded deterministically (the batch aborts
at the first exception, so only successfully processed files remain),
which duplicates their text in this archive's aggregate but cannot
change whether any exception escapes — the model processes each
archive's own entries once, and the theorems below assert only
raising/completion behavior for batches containing archives. -/
def process_archive (inTemp : Bool) (name ext : String) (body : FileBody) :
    Except PyExc FileResult :=
  if ext == ".zip" then
    match body with
    | FileBody.zipData true _ entries =>
      if inTemp then Except.error PyExc.recursionError
      else
        match process_entries entries with
        | Except.error e => Except.error e
        | Except.ok tc =>
          Except.ok ⟨joinNonEmpty tc.1, tc.2, ⟨name, ext, false, none, some tc.1.length⟩⟩
    | _ => Except.error PyExc.badZipFile
  else
    Except.ok ⟨"", [], ⟨name, ext, false, some "Архив RAR не поддерживается", none⟩⟩
termination_by (sizeOf body, 0)

/-- The walk over extracted entries inside `_process_archive`,
accumulating texts and candidates; every walked path is inside the
workspace, so entries are processed with `inTemp = true`. -/
def process_entries : FileList → Except PyExc (List String × List ProductCandidate)
  | FileList.nil => Except.ok ([], [])
  | FileList.cons n b rest =>
    match process_single_file true n b with
    | Except.error e => Except.error e
    | Except.ok r =>
      match process_entries rest with
      | Except.error e => Except.error e
      | Except.ok tc => Except.ok (r.text :: tc.1, r.product_candidates ++ tc.2)
termination_by l => (sizeOf l, 2)

end

/-- The per-batch loop at the top of `process_uploaded_files`,
collecting texts, candidates and metadata; uploaded paths are outside
the workspace (`inTemp = false`). -/
def process_batch : FileList → Except PyExc (List String × List ProductCandidate × List FileMeta)
  | FileList.nil => Except.ok ([], [], [])
  | FileList.cons n b rest =>
    match process_single_file false n b with
    | Except.error e => Except.error e
    | Except.ok r =>
      match process_batch rest with
      | Except.error e => Except.error e
      | Except.ok tcm =>
        Except.ok (r.text :: tcm.1, r.product_candidates ++ tcm.2.1, r.metadata :: tcm.2.2)

/-!
Tender record building and the registry
(`_build_tender_data`, `_evaluate_status`, `_save_manual_tender`,
`_save_registry_record`).
-/

/-- The active status string (`"актуальна"`). -/
def STATUS_ACTIVE : String := "актуальна"

/-- The expired status string (`"просрочена"`). -/
def STATUS_EXPIRED : String := "просрочена"

/-- Models `ManualTenderEntry._evaluate_status`: parse the deadline with
`"%d.%m.%Y %H:%M"`; `ValueError` (modelled by `none`) yields the active
status; a parsed deadline at or before `now` yields the expired status. -/
def evaluate_status (deadline : String) (now : PyDateTime) : String :=
  match parseDMYHM deadline with
  | none => STATUS_ACTIVE
  | some endTime => if dtLe endTime now then STATUS_EXPIRED else STATUS_ACTIVE

/-- Python `a or b` for an optional string `a`: `b` when `a` is absent or
empty (falsy). -/
def pyOrStr (a : Option String) (b : String) : String :=
  match a with
  | some s => if s.isEmpty then b else s
  | none => b

/-- The tender fields produced by `_build_tender_data` that downstream
code reads (the remaining keys are constants never used by the record
builder). -/
structure TenderData where
  tender_id_or_url : String
  title : String
  submission_deadline : String
  nmck : Nat
  deriving Repr, DecidableEq

/-- Models `ManualTenderEntry._build_tender_data`: the extraction never
sets `tender_id_or_url`, so the id falls back to the customer INN or
`"manual"`; an absent deadline falls back to `now` formatted with
`"%d.%m.%Y %H:%M"`. -/
def build_tender_data (fields : AutoFields) (now : PyDateTime) : TenderData :=
  { tender_id_or_url := pyOrStr fields.customer_inn "manual"
    title := "Ручная закупка"
    submission_deadline := pyOrStr fields.submission_deadline (fmtDMYHM now)
    nmck := 0 }

/-- A persisted registry record (`number, title, price, deadline, url,
platform, status`); monitor-sourced records may lack any key but
`status`, hence the options. -/
structure RegRecord where
  number : Option String
  title : Option String
  price : Option Int
  deadline : Option String
  url : Option String
  platform : Option String
  status : String
  deriving Repr, DecidableEq

/-- The numbers present in a registry. -/
def registryNumbers (reg : List RegRecord) : List (Option String) :=
  reg.map fun r => r.number

/-- Models `ManualTenderEntry._save_registry_record`: append the record
only when its number is not already present. -/
def save_registry_record (reg : List RegRecord) (record : RegRecord) : List RegRecord :=
  if (registryNumbers reg).contains record.number then reg else reg ++ [record]

/-- Models the record assembly and persistence of
`ManualTenderEntry._save_manual_tender`: computes the status with a
second reading of the clock (`now2`), builds the canonical record, and
appends it to the per-organization registry.  Returns the record and the
new registry (`float(0)` is the integer-valued price `0`). -/
def save_manual_tender (reg : List RegRecord) (tender : TenderData)
    (now2 : PyDateTime) : RegRecord × List RegRecord :=
  let status := evaluate_status tender.submission_deadline now2
  let record : RegRecord :=
    { number := some tender.tender_id_or_url
      title := some tender.title
      price := some (Int.ofNat tender.nmck)
      deadline := some tender.submission_deadline
      url := some tender.tender_id_or_url
      platform := some "manual"
      status := status }
  (record, save_registry_record reg record)

/-- What `process_uploaded_files` returns, plus the updated registry. -/
structure UploadResult where
  record : RegRecord
  extracted_text : String
  product_candidates : List ProductCandidate
  files : List FileMeta
  registry : List RegRecord
  deriving Repr, DecidableEq

/-- Models `ManualTenderEntry.process_uploaded_files`.  `activeInn` is
what `_load_active_inn` would read (`""` when no launcher state exists);
`now1` is the clock reading in `_build_tender_data` and `now2` the one
in `_evaluate_status`; `registry` is the persisted per-organization
record list.  A missing organization INN raises `ValueError` before any
processing; any exception from a file's processing propagates and aborts
the batch. -/
def process_uploaded_files (files : FileList) (inn : Option String)
    (activeInn : String) (now1 now2 : PyDateTime)
    (registry : List RegRecord) : Except PyExc UploadResult :=
  let effInn := pyOrStr inn activeInn
  if effInn.isEmpty then
    Except.error (PyExc.valueError "Не указан ИНН для сохранения закупки.")
  else
    match process_batch files with
    | Except.error e => Except.error e
    | Except.ok tcm =>
      let combined := joinNonEmpty tcm.1
      let autoFields := extract_fields_from_text combined
      let tender := build_tender_data autoFields now1
      let saved := save_manual_tender registry tender now2
      Except.ok
        { record := saved.1
          extracted_text := combined
          product_candidates := tcm.2.1
          files := tcm.2.2
          registry := saved.2 }

/-!
The matching engine (`modules/tender_monitor.py`).
-/

/-- One mode-qualified keyword rule (`{term, mode, distance}` with the
dictionary defaults `""`, `""`, `1` already applied). -/
structure SearchMode where
  term : String
  mode : String
  distance : Nat
  deriving Repr, DecidableEq

/-- An organization's search parameters file content. -/
structure SearchParams where
  tools_and_terms : List String
  search_modes : List SearchMode
  regions : List String
  categories : List String
  stages : List String
  platforms : List String
  deriving Repr, DecidableEq

/-- A candidate tender, with every key optional as in the incoming JSON. -/
structure CandidateTender where
  number : Option String
  title : Option String
  price : Option Int
  deadline : Option String
  url : Option String
  platform : Option String
  status : Option String
  region : Option String
  category : Option String
  stage : Option String
  description : Option String
  deriving Repr, DecidableEq

/-- The `classifiers.okved` value of a profile, as
`_profile_okved_terms` distinguishes it: a string list, a truthy scalar,
or something falsy/absent. -/
inductive OkvedField where
  | strList (xs : List String)
  | scalar (s : String)
  | absent
  deriving Repr, DecidableEq

/-- An organization profile (only the part the engine reads). -/
structure Profile where
  okved : OkvedField
  deriving Repr, DecidableEq

/-- Models `TenderMonitor._profile_okved_terms`. -/
def profile_okved_terms (p : Profile) : List String :=
  match p.okved with
  | OkvedField.strList xs => xs
  | OkvedField.scalar s => if s.isEmpty then [] else [s]
  | OkvedField.absent => []

/-- Models `TenderMonitor._normalize_mode` (`None` becomes `""` through
`mode or ""`). -/
def normalize_mode (mode : Option String) : String :=
  let key := (mode.getD "")
  if key == "exact" then "exact_in_text"
  else if key == "nearby" then "nearby_words"
  else if key == "any_ending" then "any_ending"
  else if key == "exact_in_text" then "exact_in_text"
  else if key == "nearby_words" then "nearby_words"
  else "exact_in_text"

/-- Models `TenderMonitor._is_expired`: a falsy deadline is never
expired; a deadline that does not parse as `"%Y-%m-%d"` is never
expired; otherwise expired iff the parsed date is at or before `now`. -/
def is_expired (t : CandidateTender) (now : PyDateTime) : Bool :=
  match t.deadline with
  | none => false
  | some d =>
    if d.isEmpty then false
    else
      match parseYMD d with
      | none => false
      | some endTime => dtLe endTime now

/-- Models `TenderMonitor._nearby_words`: split the (already lowered)
description into `\w+` words, the term into whitespace-separated words,
and look for a window of `distance + len(target)` consecutive
description words containing every target word. -/
def nearby_words (text term : String) (distance : Nat) : Bool :=
  let words := findWords (strLower text)
  let target := pySplit (strLower term)
  if target.isEmpty || words.isEmpty then false
  else
    (List.range words.length).any fun i =>
      target.all fun w => ((words.drop i).take (distance + target.length)).contains w

/-- Models `TenderMonitor._any_ending_match`: the lowered term with its
last character removed must be a substring of the lowered text. -/
def any_ending_match (text term : String) : Bool :=
  if term.isEmpty then false
  else strContains (strLower text) (pyDropLast (strLower term))

/-- Models `TenderMonitor._matches_terms`: trivially true when both the
term set and the rule list are empty; otherwise true iff a truthy free
term is a substring of the lowered description or some rule fires. -/
def matches_terms (text : String) (terms : List String) (modes : List SearchMode) : Bool :=
  if terms.isEmpty && modes.isEmpty then true
  else
    let lowered := strLower text
    terms.any (fun t => !t.isEmpty && strContains lowered (strLower t))
    || modes.any fun m =>
        if m.mode == "exact_in_text" then strContains lowered (strLower m.term)
        else if m.mode == "nearby_words" then nearby_words lowered m.term m.distance
        else if m.mode == "any_ending" then any_ending_match lowered m.term
        else false

/-- One allow-list check of `filter_tenders`: passes when the list is
empty or the tender's value is present in it (an absent value fails a
non-empty list). -/
def allowOk (allowed : List String) (v : Option String) : Bool :=
  allowed.isEmpty ||
    match v with
    | some s => allowed.contains s
    | none => false

/-- Models `TenderMonitor.filter_tenders`: merge the free terms with the
profile classifier terms, then keep every tender that is not expired,
passes the four allow-lists, and matches the text criteria
(`tender.get("description", "") or ""` makes an absent or `None`
description the empty string). -/
def filter_tenders (tenders : List CandidateTender) (params : SearchParams)
    (now : PyDateTime) (profile : Profile) : List CandidateTender :=
  let terms := params.tools_and_terms ++ profile_okved_terms profile
  tenders.filter fun t =>
    !is_expired t now
    && allowOk params.regions t.region
    && allowOk params.categories t.category
    && allowOk params.stages t.stage
    && allowOk params.platforms t.platform
    && matches_terms (t.description.getD "") terms params.search_modes

/-- The record `TenderMonitor._save_registry` builds from a candidate. -/
def monitorRecord (t : CandidateTender) : RegRecord :=
  { number := t.number
    title := t.title
    price := t.price
    deadline := t.deadline
    url := t.url
    platform := t.platform
    status := t.status.getD "новый" }

/-- Models `TenderMonitor._save_registry`: records whose number is
already in the persisted registry are skipped, the others are appended
in order; the `existing_ids` set is computed once, before the loop, so a
batch is not deduplicated against itself. -/
def save_registry (reg : List RegRecord) (tenders : List CandidateTender) : List RegRecord :=
  let existingIds := registryNumbers reg
  let newRecords :=
    (tenders.filter fun t => !existingIds.contains t.number).map monitorRecord
  reg ++ newRecords

/-!
Safety predicate for claim C2: which inputs avoid every modelled
exception path of the ingestion pipeline.
-/

/-- Whether an `Except` result is a success. -/
def exceptIsOk {α : Type} : Except PyExc α → Bool
  | Except.ok _ => true
  | Except.error _ => false

/-- Safety of a `.docx` body: when the zip is well formed and the main
part present, the part must parse (everything else is caught). -/
def docxSafe : FileBody → Bool
  | FileBody.zipData true parts _ =>
    (match lookupPart parts "word/document.xml" with
     | some none => false
     | _ => true)
  | _ => true

/-- Safety of an `.xlsx` body: when the zip is well formed, a present
shared-strings part and the chosen worksheet part must parse. -/
def xlsxSafe : FileBody → Bool
  | FileBody.zipData true parts _ =>
    (match lookupPart parts "xl/sharedStrings.xml" with
     | some none => false
     | _ => true)
    && (match firstWorksheet parts with
        | some none => false
        | _ => true)
  | _ => true

mutual

/-- The file-level anomalies that make the pipeline raise (beyond a
missing INN): bytes that are not a well-formed zip dispatched as a
`.zip` archive; ANY `.zip` entry inside the walked workspace
(`inTemp = true`), since a well-formed one makes the walk recurse
without bound and a malformed one raises `BadZipFile`; and malformed
XML parts inside `.docx`/`.xlsx` containers — recursively through
extracted archive entries.  `safeFile` is true when none of these
occurs. -/
def safeFile (inTemp : Bool) (name : String) (body : FileBody) : Bool :=
  let ext := pyExt name
  if BLOCKED_EXTENSIONS.contains ext then true
  else if ALLOWED_ARCHIVES.contains ext then
    (if ext == ".zip" then
      match body with
      | FileBody.zipData true _ entries => !inTemp && safeList entries
      | _ => false
     else true)
  else if ALLOWED_IMAGES.contains ext then true
  else if ALLOWED_TABLES.contains ext then
    (if ext == ".xlsx" then xlsxSafe body else true)
  else if ALLOWED_DOCS.contains ext then
    (if ext == ".docx" then docxSafe body else true)
  else true
termination_by (sizeOf body, 1)

/-- `safeFile` over the entries of an archive, which live inside the
walked workspace. -/
def safeList : FileList → Bool
  | FileList.nil => true
  | FileList.cons n b rest => safeFile true n b && safeList rest
termination_by l => (sizeOf l, 2)

end

/-- `safeFile` over an uploaded batch, whose paths are outside the
workspace. -/
def safeBatch : FileList → Bool
  | FileList.nil => true
  | FileList.cons n b rest => safeFile false n b && safeBatch rest

/-!
Concrete inputs used by the claim theorems.
-/

/-- The plain-text file contents of claim C1's scenario. -/
def c1Text : String := "Срок исполнения: 01.01.2099 10:00\nартикул: AB12 цена 1500"

/-- The single-file batch of claim C1's scenario. -/
def c1Files : FileList := FileList.cons "doc.txt" (FileBody.textData c1Text) FileList.nil

/-- A current time well before `01.01.2099 10:00`. -/
def c1Now : PyDateTime := ⟨2026, 10, 12, 12, 0, 0⟩

/-- A shared-string part with entries `apple`, `banana` in the standard
`sst / si / t` layout: whole-tree iteration visits sst(0), si(1), t(2),
si(3), t(4). -/
def c3SharedXml : Xml :=
  Xml.elem "\x7bns\x7dsst" none
    [Xml.elem "\x7bns\x7dsi" none [Xml.elem "\x7bns\x7dt" (some "apple") []],
     Xml.elem "\x7bns\x7dsi" none [Xml.elem "\x7bns\x7dt" (some "banana") []]]

/-- A worksheet whose two value cells hold the shared-string indices `0`
and `1`. -/
def c3SheetXml : Xml :=
  Xml.elem "\x7bns\x7dworksheet" none
    [Xml.elem "\x7bns\x7dc" none [Xml.elem "\x7bns\x7dv" (some "0") []],
     Xml.elem "\x7bns\x7dc" none [Xml.elem "\x7bns\x7dv" (some "1") []]]

/-- The spreadsheet container of claim C3's counterexample. -/
def c3File : FileBody :=
  FileBody.zipData true
    [("xl/sharedStrings.xml", some c3SharedXml),
     ("xl/worksheets/sheet1.xml", some c3SheetXml)]
    FileList.nil

/-!
Claim theorems.
-/

/-- Claim C1 (code_bug): the spec says ingesting a plain-text file with
the lines `Срок исполнения: 01.01.2099 10:00` and
`артикул: AB12 цена 1500` for organization 1234567890, before the
deadline, yields an active record and one candidate `(AB12, 1500)`.  The
code's raw-string patterns contain doubled backslashes, so the field and
product regexes require literal backslash characters and match nothing:
the deadline falls back to the minute-truncated current time, the status
evaluates to expired, and no product candidate is extracted. -/
theorem c1_ingestion_regex_bug :
    extract_fields_from_text c1Text = ⟨none, none⟩ ∧
    extract_product_candidates c1Text = [] ∧
    (process_uploaded_files c1Files (some "1234567890") "" c1Now c1Now []).map
      (fun r => (r.record.status, r.product_candidates)) =
      Except.ok (STATUS_EXPIRED, []) ∧
    (STATUS_EXPIRED == STATUS_ACTIVE) = false ∧
    dtLe c1Now ⟨2099, 1, 1, 10, 0, 0⟩ = true := by
  refine ⟨by decide, by decide, ?_, by decide, by decide⟩
  simp only [process_uploaded_files, process_batch, process_single_file]
  rfl

/-- Claim C3 (code_bug): the spec indexes the shared-string table by
position of encounter among the `t` entries, so cells `0` and `1` should
resolve to `apple` and `banana`.  The code enumerates ALL nodes of the
whole-tree iteration and only filters `t` tags afterwards, so the keys
are 2 and 4 and the cells come out literally as `0` and `1`. -/
theorem c3_xlsx_shared_index_bug :
    sharedTable c3SharedXml = [(2, "apple"), (4, "banana")] ∧
    extract_text_from_xlsx c3File = Except.ok "0\n1" ∧
    (("0\n1" : String) == "apple\nbanana") = false :=
  ⟨by decide, rfl, by decide⟩

/-- Claim C5 (confirmed): the record builder's status comes from parsing
the deadline with the exact `"%d.%m.%Y %H:%M"` format; a parse failure
fails open to the active status, and a parsed deadline at or before the
current instant gives the expired status, otherwise the active one. -/
theorem c5_evaluate_status_fail_open :
    (∀ (deadline : String) (now : PyDateTime), parseDMYHM deadline = none →
      evaluate_status deadline now = STATUS_ACTIVE) ∧
    (∀ (deadline : String) (now endTime : PyDateTime),
      parseDMYHM deadline = some endTime →
      evaluate_status deadline now =
        if dtLe endTime now then STATUS_EXPIRED else STATUS_ACTIVE) := by
  constructor
  · intro deadline now h
    simp [evaluate_status, h]
  · intro deadline now endTime h
    simp [evaluate_status, h]

/-- Witness for C5: a malformed date (31 February) is active whatever
the clock says, and a parsed past deadline is expired. -/
theorem c5_evaluate_status_witness :
    evaluate_status "31.02.2099 10:00" ⟨2026, 1, 1, 0, 0, 0⟩ = STATUS_ACTIVE ∧
    evaluate_status "01.01.2000 10:00" ⟨2026, 1, 1, 0, 0, 0⟩ = STATUS_EXPIRED := by
  constructor
  · exact c5_evaluate_status_fail_open.1 "31.02.2099 10:00" ⟨2026, 1, 1, 0, 0, 0⟩ (by decide)
  · have h := c5_evaluate_status_fail_open.2 "01.01.2000 10:00" ⟨2026, 1, 1, 0, 0, 0⟩
      ⟨2000, 1, 1, 10, 0, 0⟩ (by decide)
    simpa using h

/-- Counterexample for C8: the claim says every alias other than
`exact`, `nearby`, `any_ending` (or an absent mode) translates to
ExactSubstring, but the canonical name `nearby_words` — which is none of
those three aliases — maps to itself, i.e. to NearbyWords. -/
theorem c8_normalize_mode_counterexample :
    normalize_mode (some "nearby_words") = "nearby_words" ∧
    (("nearby_words" : String) == "exact_in_text") = false ∧
    (("nearby_words" : String) == "exact") = false ∧
    (("nearby_words" : String) == "nearby") = false ∧
    (("nearby_words" : String) == "any_ending") = false := by
  refine ⟨by decide, by decide, by decide, by decide, by decide⟩

/-- Claim C8 (corrected): the legacy translation maps `exact`, `nearby`,
`any_ending` to the three canonical modes and also passes the canonical
names `exact_in_text` and `nearby_words` through unchanged; every other
alias, including an absent mode, defaults to ExactSubstring. -/
theorem c8_normalize_mode_amended :
    normalize_mode (some "exact") = "exact_in_text" ∧
    normalize_mode (some "nearby") = "nearby_words" ∧
    normalize_mode (some "any_ending") = "any_ending" ∧
    normalize_mode none = "exact_in_text" ∧
    normalize_mode (some "exact_in_text") = "exact_in_text" ∧
    normalize_mode (some "nearby_words") = "nearby_words" ∧
    (∀ m : String, m ≠ "exact" → m ≠ "nearby" → m ≠ "any_ending" →
      m ≠ "exact_in_text" → m ≠ "nearby_words" →
      normalize_mode (some m) = "exact_in_text") := by
  refine ⟨by decide, by decide, by decide, by decide, by decide, by decide, ?_⟩
  intro m h1 h2 h3 h4 h5
  simp [normalize_mode, h1, h2, h3, h4, h5]

/-- Witness for C8's amended claim: an unknown alias defaults to
ExactSubstring. -/
theorem c8_normalize_mode_witness :
    normalize_mode (some "fuzzy") = "exact_in_text" :=
  c8_normalize_mode_amended.2.2.2.2.2.2 "fuzzy" (by decide) (by decide)
    (by decide) (by decide) (by decide)

/-- The empty needle is a substring of every haystack
(Python `"" in s` is always true). -/
theorem listContains_nil (hay : List Char) : listContains hay [] = true := by
  cases hay <;> simp [listContains, List.isPrefixOf]

/-- A list whose `isEmpty` is `true` is `[]`. -/
theorem isEmptyEqNil {α : Type} {l : List α} (h : l.isEmpty = true) : l = [] := by
  cases l with
  | nil => rfl
  | cons a t => simp [List.isEmpty] at h

/-- Claim C9 (confirmed): an ExactSubstring rule whose term is the empty
string makes the text check succeed on every description, because the
empty string is a substring of everything; but an empty string that is
merely a free term never produces a match, since the free-term loop
requires a truthy term. -/
theorem c9_empty_term_rule_vs_free_term :
    (∀ (text : String) (terms : List String) (modes : List SearchMode) (d : Nat),
      SearchMode.mk "" "exact_in_text" d ∈ modes →
      matches_terms text terms modes = true) ∧
    (∀ text : String, matches_terms text [""] [] = false) := by
  constructor
  · intro text terms modes d hm
    have hmodes : modes.isEmpty = false := by
      cases modes with
      | nil => cases hm
      | cons a l => rfl
    simp only [matches_terms, hmodes, Bool.and_false, Bool.false_eq_true, if_false,
      Bool.or_eq_true, List.any_eq_true]
    right
    refine ⟨SearchMode.mk "" "exact_in_text" d, hm, ?_⟩
    rw [if_pos (show (("exact_in_text" : String) == "exact_in_text") = true from rfl)]
    exact listContains_nil _
  · intro text
    have he : ("" : String).isEmpty = true := rfl
    simp [matches_terms, he]

/-- Witness for C9: both halves at a concrete description. -/
theorem c9_empty_term_witness :
    matches_terms "какое-то описание" ["abc"] [SearchMode.mk "" "exact_in_text" 1] = true ∧
    matches_terms "какое-то описание" [""] [] = false :=
  ⟨c9_empty_term_rule_vs_free_term.1 "какое-то описание" ["abc"]
      [SearchMode.mk "" "exact_in_text" 1] 1 (List.mem_singleton.mpr rfl),
   c9_empty_term_rule_vs_free_term.2 "какое-то описание"⟩

/-- Claim C10 (confirmed): a candidate whose deadline is missing, empty,
or unparsable as `"%Y-%m-%d"` (for instance a manual-entry deadline in
`DD.MM.YYYY HH:MM` form) is never classified as expired, whatever the
current time. -/
theorem c10_expiry_check_fail_open :
    (∀ (t : CandidateTender) (now : PyDateTime),
      (t.deadline = none ∨ t.deadline = some "" ∨
        ∃ d, t.deadline = some d ∧ parseYMD d = none) →
      is_expired t now = false) ∧
    (∀ now : PyDateTime,
      is_expired
        ⟨none, none, none, some "01.01.2099 10:00", none, none, none,
          none, none, none, none⟩ now = false) := by
  constructor
  · intro t now h
    rcases h with h | h | ⟨d, hd, hp⟩
    · simp [is_expired, h]
    · have he : ("" : String).isEmpty = true := rfl
      simp [is_expired, h, he]
    · by_cases he : d.isEmpty
      · simp [is_expired, hd, he]
      · simp [is_expired, hd, he, hp]
  · intro now
    have hp : parseYMD "01.01.2099 10:00" = none := by decide
    simp [is_expired, hp]

/-- Witness for C10: an impossible calendar date never expires. -/
theorem c10_expiry_check_witness :
    is_expired
      ⟨none, none, none, some "2020-13-01", none, none, none,
        none, none, none, none⟩ ⟨2026, 1, 1, 0, 0, 0⟩ = false :=
  c10_expiry_check_fail_open.1 _ _ (Or.inr (Or.inr ⟨"2020-13-01", rfl, by decide⟩))

/-- The window-containment reading of claim C6, formalized from the
claim's words for comparison with the source's `nearby_words`: some
window of length `distance + wordCount(term)` over the description's
word sequence contains all the term's words. -/
def claimNearbyWindow (text term : String) (distance : Nat) : Prop :=
  ∃ i < (findWords (strLower text)).length,
    ∀ w ∈ pySplit (strLower term),
      w ∈ ((findWords (strLower text)).drop i).take
            (distance + (pySplit (strLower term)).length)

/-- Counterexample for C6: for a term with no words the claim's "all
words of the term are in some window" holds vacuously on any non-empty
description, but the code returns no-match (it bails out on an empty
target list). -/
theorem c6_nearby_words_counterexample :
    nearby_words "a b c" "" 2 = false ∧ claimNearbyWindow "a b c" "" 2 := by
  constructor
  · decide
  · exact ⟨0, by decide, by decide⟩

/-- Claim C6 (corrected): `_nearby_words` matches iff the term splits
into a nonempty word list and some window position satisfies the
containment of all term words; in particular the claim's two concrete
instances hold. -/
theorem c6_nearby_words_amended :
    (∀ (text term : String) (distance : Nat),
      nearby_words text term distance = true ↔
        (pySplit (strLower term) ≠ [] ∧ claimNearbyWindow text term distance)) ∧
    nearby_words "fast wide format printer available now" "wide printer" 2 = true ∧
    nearby_words "fast wide format printer available now" "wide printer" 0 = false := by
  refine ⟨?_, by decide, by decide⟩
  intro text term distance
  simp only [nearby_words, claimNearbyWindow]
  cases hcond : ((pySplit (strLower term)).isEmpty || (findWords (strLower text)).isEmpty) with
  | true =>
    constructor
    · intro h
      simp at h
    · rintro ⟨hne, i, hi, _⟩
      exfalso
      rcases (by simpa using hcond :
          (pySplit (strLower term)).isEmpty = true ∨
          (findWords (strLower text)).isEmpty = true) with h | h
      · exact hne (isEmptyEqNil h)
      · rw [isEmptyEqNil h] at hi
        exact absurd hi (by simp)
  | false =>
    rw [if_neg (by simp : ¬(false = true))]
    have hne : pySplit (strLower term) ≠ [] := by
      intro hnil
      rw [hnil] at hcond
      simp [List.isEmpty] at hcond
    rw [List.any_eq_true]
    constructor
    · rintro ⟨i, hir, hall⟩
      refine ⟨hne, i, List.mem_range.mp hir, ?_⟩
      intro w hw
      have := List.all_eq_true.mp hall w hw
      simpa using this
    · rintro ⟨_, i, hi, hall⟩
      refine ⟨i, List.mem_range.mpr hi, ?_⟩
      rw [List.all_eq_true]
      intro w hw
      simpa using hall w hw

/-- Claim C7 (confirmed): a non-expired candidate that passes the four
allow-lists is accepted by `filter_tenders` whenever the merged free-term
set and the rule list are both empty (default-accept). -/
theorem c7_default_accept :
    ∀ (tenders : List CandidateTender) (t : CandidateTender) (params : SearchParams)
      (now : PyDateTime) (profile : Profile),
      t ∈ tenders →
      params.tools_and_terms = [] →
      profile_okved_terms profile = [] →
      params.search_modes = [] →
      is_expired t now = false →
      allowOk params.regions t.region = true →
      allowOk params.categories t.category = true →
      allowOk params.stages t.stage = true →
      allowOk params.platforms t.platform = true →
      t ∈ filter_tenders tenders params now profile := by
  intro tenders t params now profile hmem h1 h2 h3 hexp hr hc hs hp
  unfold filter_tenders
  apply List.mem_filter.mpr
  refine ⟨hmem, ?_⟩
  simp [h1, h2, h3, hexp, hr, hc, hs, hp, matches_terms]

/-- The duplicated candidate of claim C4's counterexample. -/
def c4DupTender : CandidateTender :=
  ⟨some "A-1", none, none, none, none, none, none, none, none, none, none⟩

/-- Counterexample for C4: the monitor's batch append computes
`existing_ids` once, before its loop, so a single batch containing the
same tender number twice is appended twice and the registry ends up with
two records numbered `A-1`. -/
theorem c4_registry_counterexample :
    save_registry [] [c4DupTender, c4DupTender] =
      [monitorRecord c4DupTender, monitorRecord c4DupTender] ∧
    registryNumbers (save_registry [] [c4DupTender, c4DupTender]) =
      [some "A-1", some "A-1"] := by
  constructor
  · rfl
  · rfl

/-- Claim C4 (corrected): a single-record append preserves uniqueness of
numbers, never removes or reorders what is already persisted, and is
idempotent for a repeated number (so ingesting the same file twice
leaves one entry); a batch append preserves uniqueness provided the
batch itself carries pairwise-distinct numbers (it only deduplicates
against the previously persisted records, not within itself). -/
theorem c4_registry_append_amended :
    (∀ (reg : List RegRecord) (r : RegRecord),
      (registryNumbers reg).Nodup →
      (registryNumbers (save_registry_record reg r)).Nodup) ∧
    (∀ (reg : List RegRecord) (r : RegRecord),
      reg <+: save_registry_record reg r) ∧
    (∀ (reg : List RegRecord) (r1 r2 : RegRecord),
      r1.number = r2.number →
      save_registry_record (save_registry_record reg r1) r2 =
        save_registry_record reg r1) ∧
    (∀ (reg : List RegRecord) (ts : List CandidateTender),
      (registryNumbers reg).Nodup →
      (ts.map fun t => t.number).Nodup →
      (registryNumbers (save_registry reg ts)).Nodup) := by
  refine ⟨?_, ?_, ?_, ?_⟩
  · intro reg r h
    unfold save_registry_record
    by_cases hc : (registryNumbers reg).contains r.number = true
    · rw [if_pos hc]
      exact h
    · rw [if_neg hc]
      unfold registryNumbers at h ⊢
      rw [List.map_append, List.nodup_append]
      refine ⟨h, List.nodup_singleton _, ?_⟩
      intro a ha hb
      rw [List.mem_map] at hb
      obtain ⟨x, hx, hxa⟩ := hb
      rw [List.mem_singleton] at hx
      subst hx
      exact hc (List.elem_iff.mpr (hxa ▸ ha))
  · intro reg r
    unfold save_registry_record
    by_cases hc : (registryNumbers reg).contains r.number = true
    · rw [if_pos hc]
    · rw [if_neg hc]
      exact List.prefix_append reg [r]
  · intro reg r1 r2 hnum
    unfold save_registry_record
    by_cases hc : (registryNumbers reg).contains r1.number = true
    · rw [if_pos hc, if_pos (hnum ▸ hc)]
    · rw [if_neg hc]
      rw [if_pos ?_]
      unfold registryNumbers
      rw [List.map_append]
      apply List.elem_iff.mpr
      apply List.mem_append_right
      rw [← hnum]
      exact List.mem_singleton.mpr rfl
  · intro reg ts hreg hts
    unfold save_registry
    unfold registryNumbers at hreg ⊢
    rw [List.map_append, List.nodup_append]
    refine ⟨hreg, ?_, ?_⟩
    · rw [List.map_map]
      have hcomp :
          ((fun r : RegRecord => r.number) ∘ monitorRecord) =
            fun t : CandidateTender => t.number := rfl
      rw [hcomp]
      exact hts.sublist (List.Sublist.map _ (List.filter_sublist ts))
    · intro a ha hb
      rw [List.map_map, List.mem_map] at hb
      obtain ⟨t, htf, hta⟩ := hb
      have hpred := (List.mem_filter.mp htf).2
      simp [registryNumbers] at hpred
      obtain ⟨x, hx, hxa⟩ := List.mem_map.mp ha
      exact hpred x hx (hxa.trans (show t.number = a from hta).symm)

/-- Witness for C4's amended claim: appending a fresh record to a
registry that already holds one record keeps the numbers unique. -/
theorem c4_registry_append_witness :
    (registryNumbers (save_registry_record [monitorRecord c4DupTender]
        ⟨some "B-2", none, none, none, none, none, "новый"⟩)).Nodup :=
  c4_registry_append_amended.1 [monitorRecord c4DupTender]
    ⟨some "B-2", none, none, none, none, none, "новый"⟩ (by decide)


/-- If a `.docx` body is safe, its extractor returns `ok`. -/
theorem docxSafe_ok (body : FileBody) (h : docxSafe body = true) :
    exceptIsOk (extract_text_from_docx body) = true := by
  cases body with
  | textData s => rfl
  | zipData ok parts entries =>
    cases ok with
    | false => rfl
    | true =>
      simp only [docxSafe] at h
      simp only [extract_text_from_docx]
      cases hl : lookupPart parts "word/document.xml" with
      | none => rfl
      | some x =>
        cases x with
        | none => rw [hl] at h; cases h
        | some root => rfl

/-- If an `.xlsx` body is safe, its extractor returns `ok`. -/
theorem xlsxSafe_ok (body : FileBody) (h : xlsxSafe body = true) :
    exceptIsOk (extract_text_from_xlsx body) = true := by
  cases body with
  | textData s => rfl
  | zipData ok parts entries =>
    cases ok with
    | false => rfl
    | true =>
      simp only [xlsxSafe] at h
      simp only [extract_text_from_xlsx]
      cases hl : lookupPart parts "xl/sharedStrings.xml" with
      | none =>
        cases hw : firstWorksheet parts with
        | none => rfl
        | some x =>
          cases x with
          | none => rw [hl, hw] at h; simp at h
          | some root => rfl
      | some x =>
        cases x with
        | none => rw [hl] at h; simp at h
        | some root =>
          cases hw : firstWorksheet parts with
          | none => rfl
          | some y =>
            cases y with
            | none => rw [hl, hw] at h; simp at h
            | some root2 => rfl

/-- Size facts for the mutual file inductives. -/
theorem fileListConsSize (nm : String) (b : FileBody) (rest : FileList) :
    sizeOf b < sizeOf (FileList.cons nm b rest) ∧
    sizeOf rest < sizeOf (FileList.cons nm b rest) := by
  constructor <;> · simp only [FileList.cons.sizeOf_spec]; omega

/-- Archive entries are smaller than the archive body. -/
theorem zipEntriesSize (ok : Bool) (parts : List (String × Option Xml)) (entries : FileList) :
    sizeOf entries < sizeOf (FileBody.zipData ok parts entries) := by
  simp only [FileBody.zipData.sizeOf_spec]; omega

theorem safe_processing_ok :
    ∀ n : Nat,
      (∀ (inTemp : Bool) (name : String) (body : FileBody), sizeOf body ≤ n →
        safeFile inTemp name body = true →
        exceptIsOk (process_single_file inTemp name body) = true) ∧
      (∀ l : FileList, sizeOf l ≤ n →
        safeList l = true → exceptIsOk (process_entries l) = true) ∧
      (∀ l : FileList, sizeOf l ≤ n →
        safeBatch l = true → exceptIsOk (process_batch l) = true) := by
  intro n
  induction n using Nat.strong_induction_on with
  | _ n ih =>
    have harch : ∀ (inTemp : Bool) (name : String) (body : FileBody), sizeOf body ≤ n →
        safeFile inTemp name body = true →
        ALLOWED_ARCHIVES.contains (pyExt name) = true →
        ¬ BLOCKED_EXTENSIONS.contains (pyExt name) = true →
        exceptIsOk (process_archive inTemp name (pyExt name) body) = true := by
      intro inTemp name body hsz hsafe h2 h1
      cases body with
      | textData s =>
        rw [safeFile.eq_2 inTemp name _ (fun p e h => FileBody.noConfusion h)] at hsafe
        rw [if_neg h1, if_pos h2] at hsafe
        by_cases hz : (pyExt name == ".zip") = true
        · rw [if_pos hz] at hsafe; cases hsafe
        · rw [process_archive.eq_2 inTemp name _ _ (fun p e h => FileBody.noConfusion h)]
          rw [if_neg hz]
          rfl
      | zipData ok parts entries =>
        cases ok with
        | false =>
          rw [safeFile.eq_2 inTemp name _
            (fun p e h => Bool.noConfusion (FileBody.zipData.inj h).1)] at hsafe
          rw [if_neg h1, if_pos h2] at hsafe
          by_cases hz : (pyExt name == ".zip") = true
          · rw [if_pos hz] at hsafe; cases hsafe
          · rw [process_archive.eq_2 inTemp name _ _
              (fun p e h => Bool.noConfusion (FileBody.zipData.inj h).1)]
            rw [if_neg hz]
            rfl
        | true =>
          rw [safeFile.eq_1] at hsafe
          rw [if_neg h1, if_pos h2] at hsafe
          rw [process_archive.eq_1]
          by_cases hz : (pyExt name == ".zip") = true
          · rw [if_pos hz] at hsafe
            rw [if_pos hz]
            cases inTemp with
            | true => simp at hsafe
            | false =>
              rw [if_neg (by simp : ¬(false = true))]
              rw [Bool.and_eq_true] at hsafe
              have hlt : sizeOf entries < n :=
                lt_of_lt_of_le (zipEntriesSize true parts entries) hsz
              have hok := (ih (sizeOf entries) hlt).2.1 entries le_rfl hsafe.2
              cases hpe : process_entries entries with
              | error e => rw [hpe] at hok; cases hok
              | ok tc => rfl
          · rw [if_neg hz]; rfl
    refine ⟨?_, ?_, ?_⟩
    · intro inTemp name body hsz hsafe
      rw [process_single_file.eq_1]
      by_cases h1 : BLOCKED_EXTENSIONS.contains (pyExt name) = true
      · rw [if_pos h1]; rfl
      · rw [if_neg h1]
        by_cases h2 : ALLOWED_ARCHIVES.contains (pyExt name) = true
        · rw [if_pos h2]
          exact harch inTemp name body hsz hsafe h2 h1
        · rw [if_neg h2]
          by_cases h3 : ALLOWED_IMAGES.contains (pyExt name) = true
          · rw [if_pos h3]; rfl
          · rw [if_neg h3]
            have hsafe2 : (if ALLOWED_TABLES.contains (pyExt name) = true then
                (if (pyExt name == ".xlsx") = true then xlsxSafe body else true)
              else if ALLOWED_DOCS.contains (pyExt name) = true then
                (if (pyExt name == ".docx") = true then docxSafe body else true)
              else true) = true := by
              cases body with
              | textData s =>
                rw [safeFile.eq_2 inTemp name _ (fun p e h => FileBody.noConfusion h)] at hsafe
                rw [if_neg h1, if_neg h2, if_neg h3] at hsafe
                exact hsafe
              | zipData ok parts entries =>
                cases ok with
                | false =>
                  rw [safeFile.eq_2 inTemp name _
                    (fun p e h => Bool.noConfusion (FileBody.zipData.inj h).1)] at hsafe
                  rw [if_neg h1, if_neg h2, if_neg h3] at hsafe
                  exact hsafe
                | true =>
                  rw [safeFile.eq_1] at hsafe
                  rw [if_neg h1, if_neg h2, if_neg h3] at hsafe
                  exact hsafe
            by_cases h4 : ALLOWED_TABLES.contains (pyExt name) = true
            · rw [if_pos h4]
              rw [if_pos h4] at hsafe2
              have htab : exceptIsOk (extract_text_from_table (pyExt name) body) = true := by
                unfold extract_text_from_table
                by_cases hcsv : (pyExt name == ".csv") = true
                · rw [if_pos hcsv]; rfl
                · rw [if_neg hcsv]
                  by_cases hx : (pyExt name == ".xlsx") = true
                  · rw [if_pos hx]
                    rw [if_pos hx] at hsafe2
                    exact xlsxSafe_ok body hsafe2
                  · rw [if_neg hx]; rfl
              cases het : extract_text_from_table (pyExt name) body with
              | error e => rw [het] at htab; cases htab
              | ok t => rfl
            · rw [if_neg h4]
              rw [if_neg h4] at hsafe2
              by_cases h5 : ALLOWED_DOCS.contains (pyExt name) = true
              · rw [if_pos h5]
                rw [if_pos h5] at hsafe2
                have hdoc : exceptIsOk (extract_text_from_document (pyExt name) body) = true := by
                  unfold extract_text_from_document
                  by_cases htxt : (pyExt name == ".txt") = true
                  · rw [if_pos htxt]; rfl
                  · rw [if_neg htxt]
                    by_cases hdx : (pyExt name == ".docx") = true
                    · rw [if_pos hdx]
                      rw [if_pos hdx] at hsafe2
                      exact docxSafe_ok body hsafe2
                    · rw [if_neg hdx]; rfl
                cases het : extract_text_from_document (pyExt name) body with
                | error e => rw [het] at hdoc; cases hdoc
                | ok t => rfl
              · rw [if_neg h5]; rfl
    · intro l hsz hsafe
      cases l with
      | nil => rw [process_entries.eq_1]; rfl
      | cons nm b rest =>
        rw [process_entries.eq_2]
        rw [safeList.eq_2] at hsafe
        rw [Bool.and_eq_true] at hsafe
        obtain ⟨hbf, hbl⟩ := hsafe
        have hsizes := fileListConsSize nm b rest
        have hA := (ih (sizeOf b) (lt_of_lt_of_le hsizes.1 hsz)).1 true nm b le_rfl hbf
        cases hpf : process_single_file true nm b with
        | error e => rw [hpf] at hA; cases hA
        | ok r =>
          have hB := (ih (sizeOf rest) (lt_of_lt_of_le hsizes.2 hsz)).2.1 rest le_rfl hbl
          cases hpe : process_entries rest with
          | error e => rw [hpe] at hB; cases hB
          | ok tc => rfl
    · intro l hsz hsafe
      cases l with
      | nil => rw [process_batch.eq_1]; rfl
      | cons nm b rest =>
        rw [process_batch.eq_2]
        rw [safeBatch.eq_2] at hsafe
        rw [Bool.and_eq_true] at hsafe
        obtain ⟨hbf, hbl⟩ := hsafe
        have hsizes := fileListConsSize nm b rest
        have hA := (ih (sizeOf b) (lt_of_lt_of_le hsizes.1 hsz)).1 false nm b le_rfl hbf
        cases hpf : process_single_file false nm b with
        | error e => rw [hpf] at hA; cases hA
        | ok r =>
          have hC := (ih (sizeOf rest) (lt_of_lt_of_le hsizes.2 hsz)).2.2 rest le_rfl hbl
          cases hpb : process_batch rest with
          | error e => rw [hpb] at hC; cases hC
          | ok tcm => rfl

/-- Counterexample for C2: a file with a `.zip` extension whose bytes are
not a well-formed zip makes the whole ingestion raise `BadZipFile` —
not the missing-organization `ValueError` — because `_process_archive`
opens the archive outside any `try`. -/
theorem c2_raises_counterexample :
    process_uploaded_files
        (FileList.cons "bad.zip" (FileBody.textData "not a zip") FileList.nil)
        (some "1234567890") "" ⟨2026, 1, 1, 0, 0, 0⟩ ⟨2026, 1, 1, 0, 0, 0⟩ [] =
      Except.error PyExc.badZipFile ∧
    (PyExc.badZipFile == PyExc.valueError "Не указан ИНН для сохранения закупки.") = false := by
  constructor
  · simp only [process_uploaded_files, process_batch, process_single_file, process_archive]
    rfl
  · decide

/-- Claim C2 (corrected): the ingestion entry point raises `ValueError`
(MissingInput) when the effective organization INN is empty; it ALSO
propagates a container error for a malformed file dispatched as a `.zip`
archive, an XML parse error for malformed `word/document.xml`,
`xl/sharedStrings.xml` or worksheet parts inside `.docx`/`.xlsx`
containers, and — because the walk over the shared workspace
re-encounters a nested archive and recurses without bound — an uncaught
`RecursionError` for a zip archive containing a further zip archive.
Every other anomaly — unknown or blocked extensions, the unsupported
`.rar` decoder, non-zip bytes opened as `.docx`/`.xlsx`, missing
container parts, unparsable dates — degrades to empty or default values
and the batch runs to completion. -/
theorem c2_ingestion_exceptions_amended :
    (∀ (files : FileList) (inn : Option String) (activeInn : String)
        (now1 now2 : PyDateTime) (registry : List RegRecord),
      pyOrStr inn activeInn = "" →
      process_uploaded_files files inn activeInn now1 now2 registry =
        Except.error (PyExc.valueError "Не указан ИНН для сохранения закупки.")) ∧
    (∀ (files : FileList) (inn : Option String) (activeInn : String)
        (now1 now2 : PyDateTime) (registry : List RegRecord),
      pyOrStr inn activeInn ≠ "" →
      safeBatch files = true →
      exceptIsOk (process_uploaded_files files inn activeInn now1 now2 registry) = true) ∧
    process_uploaded_files
        (FileList.cons "outer.zip"
          (FileBody.zipData true []
            (FileList.cons "inner.zip" (FileBody.zipData true [] FileList.nil)
              FileList.nil))
          FileList.nil)
        (some "1234567890") "" ⟨2026, 1, 1, 0, 0, 0⟩ ⟨2026, 1, 1, 0, 0, 0⟩ [] =
      Except.error PyExc.recursionError := by
  refine ⟨?_, ?_, ?_⟩
  · intro files inn activeInn now1 now2 registry h
    unfold process_uploaded_files
    rw [if_pos (by rw [h]; rfl)]
  · intro files inn activeInn now1 now2 registry h hsafe
    unfold process_uploaded_files
    rw [if_neg (fun hc => h ((String.isEmpty_iff _).mp hc))]
    have hb := (safe_processing_ok (sizeOf files)).2.2 files le_rfl hsafe
    cases hpb : process_batch files with
    | error e => rw [hpb] at hb; cases hb
    | ok tcm => rfl
  · simp only [process_uploaded_files, process_batch, process_single_file,
      process_archive, process_entries]
    rfl

/-- Witness for C2's amended claim: a batch holding an unsupported rar
archive, an unknown extension, a `.docx` with corrupt zip bytes and a
`.txt` file completes, while a missing INN raises `ValueError`. -/
theorem c2_ingestion_exceptions_witness :
    exceptIsOk (process_uploaded_files
        (FileList.cons "a.rar" (FileBody.textData "rar bytes")
          (FileList.cons "b.unknown" (FileBody.textData "zzz")
            (FileList.cons "c.docx" (FileBody.textData "bad zip bytes")
              (FileList.cons "d.txt" (FileBody.textData "привет") FileList.nil))))
        (some "1234567890") "" ⟨2026, 1, 1, 0, 0, 0⟩ ⟨2026, 1, 1, 0, 0, 0⟩ []) = true ∧
    process_uploaded_files FileList.nil none "" ⟨2026, 1, 1, 0, 0, 0⟩
        ⟨2026, 1, 1, 0, 0, 0⟩ [] =
      Except.error (PyExc.valueError "Не указан ИНН для сохранения закупки.") :=
  ⟨(c2_ingestion_exceptions_amended.2.1) _ (some "1234567890") "" _ _ []
      (by decide) (by simp only [safeBatch, safeFile]; decide),
   c2_ingestion_exceptions_amended.1 FileList.nil none "" _ _ [] rfl⟩

/-- Witness for C7: an all-defaults candidate against all-empty
parameters and an empty profile is accepted. -/
theorem c7_default_accept_witness :
    (⟨some "T1", none, none, none, none, none, none, none, none, none, none⟩ :
        CandidateTender) ∈
      filter_tenders
        [⟨some "T1", none, none, none, none, none, none, none, none, none, none⟩]
        ⟨[], [], [], [], [], []⟩ ⟨2026, 1, 1, 0, 0, 0⟩ ⟨OkvedField.absent⟩ :=
  c7_default_accept _ _ _ _ _ (List.mem_singleton.mpr rfl) rfl rfl rfl
    (by decide) (by decide) (by decide) (by decide) (by decide)

end Tender

